import Mathlib

/-!
Verification development for the shelvis repository.

Shallow embedding of the parts of the code that the checked properties
concern:

* `shelvis/io/dataset.py` — `DatasetBase.add_scalar`, `DatasetBase.add_vector`
  (unit rescaling, cell/point dispatch, error paths, caller buffers);
* `shelvis/io/cider.py` — `Dataset._get_cartesian_vector` and
  `Dataset.get_transformed_vector` (spherical-to-Cartesian basis
  rotation, then magnitude/unit-direction decomposition through a frame
  transform);
* `shelvis/vtk/tracer.py` — `StreamTracer._split_curve` and the
  post-processing of `StreamTracer.trace_from_point`;
* `shelvis/core/containers.py` — `SkyCoordContainer.remove`,
  `SkyCoordContainer.__delitem__`, `SkyCoordContainer.changes_to_points`;
* `shelvis/plot/streamline.py` — `StreamlinePlot._on_seeds_change`.

Machine floats are modelled by exact rationals (for the decidable,
executable parts) or by real numbers (for the magnitude computations that
use a square root).  A float division is modelled as an `Option`: `none`
stands for a non-finite result (NaN or infinity), which numpy propagates
silently instead of raising.  Python exceptions are modelled by an
`Option` error component in the result: `some e` means the call raised
and the returned state is the state the object was left in.
-/

namespace Shelvis

/-! ### Units (astropy.units, as used by dataset.py)

An astropy unit, reduced to what `add_scalar` and `add_vector` use of it:
`_unit.si.scale` (the factor converting a value in the unit to SI) and
`_unit.si.bases[0]` (the first SI base unit, registered in `unit_of`). -/

structure PhysUnit where
  scale : ℚ
  siBase : String
deriving DecidableEq

/-- The unit "km": scale 1000, SI base "m". -/
def kmUnit : PhysUnit := ⟨1000, "m"⟩

/-- A unit of scale 1 with SI base "m" (for example "m" itself). -/
def mUnit : PhysUnit := ⟨1, "m"⟩

/-! ### Dataset state (io/dataset.py) -/

/-- A VTK data array as stored by `AddArray`: either a flat scalar array
or an array of 3-component tuples (the transposed stack that
`add_vector` builds). -/
inductive VtkArray where
  | scalar (vals : List ℚ)
  | vector (vals : List (ℚ × ℚ × ℚ))
deriving DecidableEq

/-- Dictionary update with Python/VTK semantics for later lookup: the new
binding wins over any previous binding of the same key. -/
def setKey {α : Type} (l : List (String × α)) (k : String) (v : α) :
    List (String × α) :=
  (k, v) :: l.filter (fun p => p.1 ≠ k)

/-- First-match association lookup (Python dict access on unique keys). -/
def lookupKey {α : Type} (l : List (String × α)) (k : String) : Option α :=
  match l with
  | [] => none
  | (k2, v) :: t => if k2 = k then some v else lookupKey t k

/-- Observable state of a `DatasetBase` together with its VTK grid:
`numCells`/`numPoints` are `none` when the VTK object is uninitialized
(`self.cells is None` / `self.points is None`), `cellData`/`pointData`
are the arrays registered via `AddArray`, and `unitOf` is the
`_unit_of` dictionary. -/
structure DatasetState where
  numCells : Option Nat
  numPoints : Option Nat
  cellData : List (String × VtkArray)
  pointData : List (String × VtkArray)
  unitOf : List (String × String)
deriving DecidableEq

/-- Errors raised by ingestion (`ValueError`s in the source; an attribute
access on an uninitialized grid also aborts the call). -/
inductive DatasetError where
  | uninitializedGrid
  | incompatibleArraySize
  | mismatchedComponentSize
deriving DecidableEq

/-- `DatasetBase.add_scalar` (dataset.py lines 38-67).  Returns the state
the dataset is left in, the values the caller-owned input buffer holds
after the call, and the error if the call raised.  The source checks
initialization, rescales a fresh array `_array = data * _unit.si.scale`
(the input buffer is not touched), dispatches on the array size being
the cell count and then the point count, adds the array and registers
`_unit.si.bases[0]` in `_unit_of`. -/
def add_scalar (s : DatasetState) (data : List ℚ) (name : String)
    (u : PhysUnit) : DatasetState × List ℚ × Option DatasetError :=
  match s.numCells, s.numPoints with
  | some nc, some np =>
    let arr := data.map (fun x => x * u.scale)
    if arr.length = nc then
      ({ s with cellData := setKey s.cellData name (VtkArray.scalar arr),
                unitOf := setKey s.unitOf name u.siBase }, data, none)
    else if arr.length = np then
      ({ s with pointData := setKey s.pointData name (VtkArray.scalar arr),
                unitOf := setKey s.unitOf name u.siBase }, data, none)
    else
      (s, data, some DatasetError.incompatibleArraySize)
  | _, _ => (s, data, some DatasetError.uninitializedGrid)

/-- Component-wise zip of the three component lists into the transposed
`np.array([vx, vy, vz]).T` that `add_vector` stores. -/
def zip3 : List ℚ → List ℚ → List ℚ → List (ℚ × ℚ × ℚ)
  | x :: xs, y :: ys, z :: zs => (x, y, z) :: zip3 xs ys zs
  | _, _, _ => []

/-- `DatasetBase.add_vector` (dataset.py lines 69-106).  Returns the
state the dataset is left in, the values the three caller-owned
component buffers hold after the call, and the error if the call
raised.  The source first checks the three components have equal size,
then rescales the components **in place** (`vx *= _unit.si.scale`, so
the caller buffers now hold the scaled values), builds the transposed
stack, dispatches on cell count (an uninitialized grid aborts at the
attribute access) and then point count, adds the array and registers
the unit. -/
def add_vector (s : DatasetState) (vx vy vz : List ℚ) (name : String)
    (u : PhysUnit) :
    DatasetState × (List ℚ × List ℚ × List ℚ) × Option DatasetError :=
  if vx.length = vy.length ∧ vy.length = vz.length then
    let vx2 := vx.map (fun x => x * u.scale)
    let vy2 := vy.map (fun x => x * u.scale)
    let vz2 := vz.map (fun x => x * u.scale)
    let vf := VtkArray.vector (zip3 vx2 vy2 vz2)
    match s.numCells with
    | none => (s, (vx2, vy2, vz2), some DatasetError.uninitializedGrid)
    | some nc =>
      if vx2.length = nc then
        ({ s with cellData := setKey s.cellData name vf,
                  unitOf := setKey s.unitOf name u.siBase },
         (vx2, vy2, vz2), none)
      else
        match s.numPoints with
        | none => (s, (vx2, vy2, vz2), some DatasetError.uninitializedGrid)
        | some np =>
          if vx2.length = np then
            ({ s with pointData := setKey s.pointData name vf,
                      unitOf := setKey s.unitOf name u.siBase },
             (vx2, vy2, vz2), none)
          else
            (s, (vx2, vy2, vz2), some DatasetError.incompatibleArraySize)
  else
    (s, (vx, vy, vz), some DatasetError.mismatchedComponentSize)

/-! ### Streamline tracer (vtk/tracer.py) -/

/-- A polyline vertex in internal Cartesian coordinates. -/
def Pt : Type := ℚ × ℚ × ℚ

instance : DecidableEq Pt := by unfold Pt; infer_instance

/-- Squared distance from the origin, `x*x + y*y + z*z`. -/
def dsqr (p : Pt) : ℚ := p.1 * p.1 + p.2.1 * p.2.1 + p.2.2 * p.2.2

/-- `np.isclose` with the numpy defaults `rtol = 1e-5`, `atol = 1e-8`:
true iff the absolute difference is within `atol + rtol * |b|`. -/
def isclose (a b : ℚ) : Prop :=
  |a - b| ≤ 1 / 100000000 + (1 / 100000) * |b|

instance (a b : ℚ) : Decidable (isclose a b) := by
  unfold isclose; infer_instance

/-- Ascending indices (starting at `i`) of the points whose squared
distance from the origin is close to `d0`. -/
def matchIndicesAux (d0 : ℚ) : Nat → List Pt → List Nat
  | _, [] => []
  | i, p :: t =>
    if isclose (dsqr p) d0 then i :: matchIndicesAux d0 (i + 1) t
    else matchIndicesAux d0 (i + 1) t

/-- The index array `np.where(np.isclose(dsqr, dsqr[0]))[0]` of
`_split_curve`: the ascending list of indices whose squared distance
from the origin is close to the one of index 0. -/
def matchIndices (curve : List Pt) : List Nat :=
  match curve with
  | [] => []
  | p0 :: _ => matchIndicesAux (dsqr p0) 0 curve

/-- `StreamTracer._split_curve` (tracer.py lines 114-124).  The first
matching index (always index 0 itself) is deleted; `np.array_split`
then yields one part per remaining index plus one, and the unpacking
`curve1, curve2 = ...` succeeds only when exactly one index remains.
`curve1[:0:-1]` is the reversal of `curve1` without its element 0.
`none` models the `ValueError` raised when the unpacking fails. -/
def split_curve (curve : List Pt) : Option (List Pt) :=
  match (matchIndices curve).drop 1 with
  | [j] =>
    let curve1 := curve.take j
    let curve2 := curve.drop j
    some ((curve1.drop 1).reverse ++ curve2)
  | _ => none

/-- The integration direction flag of `StreamTracer`. -/
inductive Direction where
  | both
  | forward
  | backward
deriving DecidableEq

/-- The tail of `StreamTracer.trace_from_point` (tracer.py lines
126-145): given the raw polyline returned by the VTK integrator, apply
the origin split when the direction is `both` and return the polyline
unchanged otherwise.  (The transposition `.T` only changes the numpy
layout, not the point sequence.) -/
def trace_post (dir : Direction) (curve : List Pt) : Option (List Pt) :=
  match dir with
  | Direction.both => split_curve curve
  | _ => some curve

/-! ### Named point container and diff (core/containers.py)

An astropy `SkyCoord` value, reduced to what the diff uses of it: its
numpy `shape` tuple and the per-component coordinate data (so that two
values can be distinguished and a separation can be computed on them).
The great-circle separation itself is computed by astropy; it enters the
embedding as an explicit function argument `sep`, returning the
separation of each component pair in arcseconds. -/

structure Coord where
  shape : List Nat
  comps : List ℚ
deriving DecidableEq

/-- `SkyCoordContainer.changes_to_points` (containers.py lines 110-152).
`sep a b` models `a.separation(b).arcsecond` componentwise; the source
calls it as `new_coord.separation(old_coord)`.  For keys in both dicts
the entry is marked updated when the shapes differ, and otherwise when
`not (sep < tolerance_arcsec).all()`. -/
def changes_to_points (sep : Coord → Coord → List ℚ) (tol : ℚ)
    (old new : List (String × Coord)) :
    List (String × Coord) × List (String × Coord)
      × List (String × (Coord × Coord)) :=
  let added := new.filter (fun p => (lookupKey old p.1).isNone)
  let removed := old.filter (fun p => (lookupKey new p.1).isNone)
  let updated := old.filterMap (fun p =>
    match lookupKey new p.1 with
    | none => none
    | some nv =>
      if p.2.shape ≠ nv.shape then some (p.1, (p.2, nv))
      else if (sep nv p.2).all (fun d => decide (d < tol)) then none
      else some (p.1, (p.2, nv)))
  (added, removed, updated)

/-- `SkyCoordContainer.remove` (containers.py lines 96-108).  Returns
the resulting `points` dictionary and whether the dictionary was
reassigned (a reassignment is what publishes a new snapshot through the
traitlets observation mechanism).  When the key is absent nothing at
all happens. -/
def removePoint (pts : List (String × Coord)) (key : String) :
    List (String × Coord) × Bool :=
  if (lookupKey pts key).isSome then
    (pts.filter (fun p => p.1 ≠ key), true)
  else
    (pts, false)

/-- `SkyCoordContainer.__delitem__` (containers.py lines 73-81): it
just delegates to `remove`. -/
def delitem (pts : List (String × Coord)) (key : String) :
    List (String × Coord) × Bool :=
  removePoint pts key

/-! ### Streamline plot reconciliation (plot/streamline.py) -/

/-- A rendered plotly trace, reduced to what `_on_seeds_change` uses of
it: its `name` (the seed label it is tagged with) and an identifying
payload. -/
structure TraceObj where
  name : String
  payload : Nat
deriving DecidableEq

/-- `StreamlinePlot._on_seeds_change` (streamline.py lines 46-74).
`traceSources` models `self.trace_sources` (it invokes the external
tracer, so it enters as a function argument); `figData` is
`_fig.data`.  The source computes the diff with the default tolerance,
filters out of the figure every trace whose name is in
`removed ∪ updated`, reassigns the figure data, then appends the
retraced plots for updated keys and finally the plots for added
keys. -/
def on_seeds_change (sep : Coord → Coord → List ℚ)
    (traceSources : String → List TraceObj)
    (old new : List (String × Coord)) (figData : List TraceObj) :
    List TraceObj :=
  let diff := changes_to_points sep (1 / 1000000) old new
  let added := diff.1
  let removed := diff.2.1
  let updated := diff.2.2
  let toBeRemoved := removed.map Prod.fst ++ updated.map Prod.fst
  let newFigData := figData.filter (fun d => decide (d.name ∉ toBeRemoved))
  let afterUpdated := (updated.map Prod.fst).foldl
    (fun f k => f ++ traceSources k) newFigData
  (added.map Prod.fst).foldl (fun f k => f ++ traceSources k) afterUpdated

/-! ### Vector field frame transformation (io/cider.py)

The grids of components are element-wise; the embedding works with a
single vector at one grid location, whose polar angle is `th` and
azimuthal angle `ph` (the meshgrid values at that location).  The frame
transformation `transform_to` applied to a Cartesian pseudo-position is
modelled by an explicit function `R` on Cartesian triples; which frame
pairs are pure rotations is a property of the external frame provider,
so it enters the theorems as an explicit magnitude-preservation
hypothesis on `R`, and a frame pair with a translation is a concrete
choice of `R` that refutes preservation. -/

/-- A vector as a triple of components: `(vr, vt, vp)` in the local
spherical basis, or `(vx, vy, vz)` in a Cartesian basis. -/
def Vec3 : Type := ℝ × ℝ × ℝ

/-- The field magnitude `np.sqrt(vx*vx + vy*vy + vz*vz)`. -/
noncomputable def magnitude (v : Vec3) : ℝ :=
  Real.sqrt (v.1 * v.1 + v.2.1 * v.2.1 + v.2.2 * v.2.2)

/-- Float division as numpy performs it: `none` models a non-finite
result (`0/0` is NaN, `x/0` is an infinity), which numpy produces
silently — no exception is raised — and which propagates through every
later arithmetic operation and through the frame transform. -/
noncomputable def fdiv (x y : ℝ) : Option ℝ :=
  if y = 0 then none else some (x / y)

/-- `Dataset._get_cartesian_vector` (cider.py lines 43-56) at one grid
location: the closed-form spherical-to-Cartesian basis rotation applied
to the local components `(vr, vt, vp)` at polar angle `th` and
azimuthal angle `ph`. -/
noncomputable def _get_cartesian_vector (th ph : ℝ) (v : Vec3) : Vec3 :=
  (v.1 * Real.sin th * Real.cos ph + v.2.1 * Real.cos th * Real.cos ph
     - v.2.2 * Real.sin ph,
   v.1 * Real.sin th * Real.sin ph + v.2.1 * Real.cos th * Real.sin ph
     + v.2.2 * Real.cos ph,
   v.1 * Real.cos th - v.2.1 * Real.sin th)

/-- `Dataset.get_transformed_vector` (cider.py lines 58-91), for one
vector: convert the local-basis components to a Cartesian vector with
the basis rotation of `_get_cartesian_vector`, compute the magnitude,
divide the components by it to get the unit direction, pass the unit
direction through the frame transform `R` as a pseudo-position, and
rescale the transformed direction by the original magnitude.  A
division by a zero magnitude poisons the result (`none`). -/
noncomputable def get_transformed_vector (R : Vec3 → Vec3) (th ph : ℝ)
    (v : Vec3) : Option Vec3 :=
  let c := _get_cartesian_vector th ph v
  let vabs := magnitude c
  match fdiv c.1 vabs, fdiv c.2.1 vabs, fdiv c.2.2 vabs with
  | some ux, some uy, some uz =>
    let w := R (ux, uy, uz)
    some (vabs * w.1, vabs * w.2.1, vabs * w.2.2)
  | _, _, _ => none

/-! ### Concrete instances used by the spec scenarios -/

/-- The synthetic both-direction polyline named by the spec for the
origin split. -/
def specPolyline : List Pt :=
  [(0, 0, 5), (0, 0, 3), (0, 0, 1), (0, 0, -1), (0, 0, -3),
   (0, 0, 999999 / 1000000)]

/-- A both-direction polyline whose first-point squared distance from
the origin reappears exactly once (at index 3, the forward restart at
the seed), as the VTK output of a bidirectional trace actually looks:
backward branch first, then the forward branch restarting next to the
seed. -/
def goodPolyline : List Pt :=
  [(0, 0, 1), (0, 0, 3), (0, 0, 5), (0, 0, 999999 / 1000000),
   (0, 0, -3 / 2), (0, 0, -3)]

/-- A concrete componentwise separation function for scenario instances:
the absolute coordinate difference of each component pair. -/
def sep0 (a b : Coord) : List ℚ :=
  (a.comps.zip b.comps).map (fun q => |q.1 - q.2|)

/-- A concrete trace factory for scenario instances: one rendered trace
per label, tagged with that label. -/
def ts0 (k : String) : List TraceObj := [⟨k, 100⟩]

/-- A scalar coordinate for scenario instances. -/
def coordA : Coord := ⟨[], [0]⟩

/-- A second, distinct scalar coordinate for scenario instances. -/
def coordB : Coord := ⟨[], [1]⟩

/-! ## Helper lemmas -/

theorem lookupKey_eq_some_iff_mem {α : Type} (l : List (String × α))
    (hl : (l.map Prod.fst).Nodup) (k : String) (v : α) :
    lookupKey l k = some v ↔ (k, v) ∈ l := by
  induction l with
  | nil => simp [lookupKey]
  | cons p t ih =>
    obtain ⟨k2, v2⟩ := p
    simp only [List.map_cons, List.nodup_cons] at hl
    by_cases hk : k2 = k
    · subst hk
      have hnot : (k2, v) ∉ t := fun h2 => hl.1 (List.mem_map_of_mem Prod.fst h2)
      simp [lookupKey, hnot, eq_comm]
    · simp only [lookupKey, if_neg hk, List.mem_cons, Prod.mk.injEq]
      rw [ih hl.2]
      constructor
      · exact Or.inr
      · rintro (⟨rfl, _⟩ | h2)
        · exact absurd rfl hk
        · exact h2

theorem lookupKey_setKey {α : Type} (l : List (String × α)) (k : String)
    (v : α) : lookupKey (setKey l k v) k = some v := by
  simp [setKey, lookupKey]

theorem isclose_self (d : ℚ) : isclose d d := by
  unfold isclose
  simp only [sub_self, abs_zero]
  positivity

theorem foldl_append_flatten {α : Type} (g : String → List α) :
    ∀ (ks : List String) (init : List α),
      ks.foldl (fun f k => f ++ g k) init = init ++ ks.flatMap g := by
  intro ks
  induction ks with
  | nil => intro init; simp
  | cons k t ih =>
    intro init
    simp only [List.foldl_cons, List.flatMap_cons]
    rw [ih, List.append_assoc]

/-! ## Claims -/

/-- Claim C2, counterexample: on the synthetic polyline that the spec
names, the squared distance at index 0 is 25 and no other index is
`np.isclose` to it, so the origin split does not return any line at
all: `np.array_split` produces a single part and the two-element
unpacking raises (`none` in the embedding), instead of the claimed
monotonically continuous line. -/
theorem c2_split_spec_polyline_fails :
    (matchIndices specPolyline).drop 1 = [] ∧
    split_curve specPolyline = none := by
  have hmi : matchIndices specPolyline = [0] := by
    norm_num [specPolyline, matchIndices, matchIndicesAux, isclose, dsqr,
      abs_le, lt_abs]
  refine ⟨by rw [hmi]; rfl, ?_⟩
  unfold split_curve
  rw [hmi]
  rfl

/-- Claim C2 (amended): when exactly one index `j` besides index 0 has
its squared distance from the origin within floating tolerance of the
squared distance at index 0, `_split_curve` splits the polyline at `j`
into two sub-paths and returns `reverse(first)[:-1]` concatenated with
`second` (the slice `curve1[:0:-1]` drops the element at index 0 of the
reversed first part). -/
theorem c2_origin_split (curve : List Pt) (j : Nat)
    (h : (matchIndices curve).drop 1 = [j]) :
    split_curve curve
      = some (((curve.take j).drop 1).reverse ++ curve.drop j) := by
  unfold split_curve
  rw [h]

/-- Claim C2, witness: on a polyline whose first-point squared distance
reappears exactly at index 3, the origin split returns the single
monotone line without the loop-back point. -/
theorem c2_origin_split_witness :
    (matchIndices goodPolyline).drop 1 = [3] ∧
    split_curve goodPolyline
      = some [(0, 0, 5), (0, 0, 3), (0, 0, 999999 / 1000000),
              (0, 0, -3 / 2), (0, 0, -3)] := by
  have hmi : (matchIndices goodPolyline).drop 1 = [3] := by
    have h2 : matchIndices goodPolyline = [0, 3] := by
      norm_num [goodPolyline, matchIndices, matchIndicesAux, isclose, dsqr,
        abs_le, lt_abs]
    rw [h2]
    rfl
  exact ⟨hmi, (c2_origin_split goodPolyline 3 hmi).trans (by rfl)⟩

/-- Claim C8, counterexample: when the integrator reports no advancement
(the raw polyline is the single seed point), `trace_from_point` with
direction `forward` returns the degenerate single-point polyline
instead of failing: no `SeedOutsideDomain` (or any other) error is
raised on this path. -/
theorem c8_forward_returns_degenerate :
    trace_post Direction.forward [((0 : ℚ), 0, 1)]
      = some [((0 : ℚ), 0, 1)] := rfl

/-- Claim C8 (amended): on a single-point raw polyline,
`trace_from_point` returns the degenerate single-point polyline for
directions `forward` and `backward`; for direction `both` the origin
split fails (index 0 always matches itself, no other index exists, so
the two-element unpacking of one part raises a `ValueError`).  No
`SeedOutsideDomain` error exists in the code. -/
theorem c8_no_advancement_behavior (p : Pt) :
    trace_post Direction.forward [p] = some [p] ∧
    trace_post Direction.backward [p] = some [p] ∧
    trace_post Direction.both [p] = none := by
  refine ⟨rfl, rfl, ?_⟩
  have hmi : matchIndices [p] = [0] := by
    simp [matchIndices, matchIndicesAux, isclose_self]
  show split_curve [p] = none
  unfold split_curve
  rw [hmi]
  rfl

/-- Claim C10: removing a label that is not present leaves the points
mapping unchanged and publishes no new snapshot (the dictionary is
never reassigned, so no traitlets notification fires), both through
`remove` and through `__delitem__`. -/
theorem c10_remove_missing_noop (pts : List (String × Coord))
    (key : String) (h : lookupKey pts key = none) :
    removePoint pts key = (pts, false) ∧ delitem pts key = (pts, false) := by
  have h2 : removePoint pts key = (pts, false) := by
    unfold removePoint
    rw [h]
    rfl
  exact ⟨h2, h2⟩

/-- Claim C10, witness: removing the absent label "B" from a container
holding only "A" changes nothing and emits nothing. -/
theorem c10_remove_missing_witness :
    lookupKey [("A", coordA)] "B" = none ∧
    removePoint [("A", coordA)] "B" = ([("A", coordA)], false) ∧
    delitem [("A", coordA)] "B" = ([("A", coordA)], false) := by
  have h : lookupKey [("A", coordA)] "B" = none := by simp [lookupKey]
  exact ⟨h, c10_remove_missing_noop [("A", coordA)] "B" h⟩

/-- Claim C4: ingestion is atomic per call — whenever `add_scalar` or
`add_vector` raises (uninitialized grid, incompatible array size, or
mismatched component sizes), the dataset state is returned exactly as
it was: no array is stored in the grid and no entry is added to
`unit_of`. -/
theorem c4_ingestion_atomic (s : DatasetState) (data vx vy vz : List ℚ)
    (name : String) (u : PhysUnit) :
    ((add_scalar s data name u).2.2.isSome → (add_scalar s data name u).1 = s) ∧
    ((add_vector s vx vy vz name u).2.2.isSome →
      (add_vector s vx vy vz name u).1 = s) := by
  constructor
  · simp only [add_scalar]
    repeat' split
    all_goals simp
  · simp only [add_vector]
    repeat' split
    all_goals simp

/-- Claim C4, witness: failed ingestion on an uninitialized grid leaves
the empty dataset state untouched. -/
theorem c4_ingestion_atomic_witness :
    (add_scalar ⟨none, none, [], [], []⟩ [1] "b" kmUnit).1
      = ⟨none, none, [], [], []⟩ ∧
    (add_vector ⟨none, none, [], [], []⟩ [1] [1] [1] "b" kmUnit).1
      = ⟨none, none, [], [], []⟩ :=
  ⟨(c4_ingestion_atomic ⟨none, none, [], [], []⟩ [1] [1] [1] [1] "b" kmUnit).1
     rfl,
   (c4_ingestion_atomic ⟨none, none, [], [], []⟩ [1] [1] [1] [1] "b" kmUnit).2
     rfl⟩

/-- Claim C6: `add_scalar` rescales to SI on ingestion — for a scalar
field whose length equals the point count (and not the cell count, so
it lands in the point data), the call succeeds, the stored array holds
the input values multiplied by the SI scale of the unit (1000 for
"km"), and dividing the stored SI values by the scale recovers the
original input exactly. -/
theorem c6_add_scalar_si_rescale (s : DatasetState) (data : List ℚ)
    (name : String) (u : PhysUnit) (nc np : Nat)
    (hc : s.numCells = some nc) (hp : s.numPoints = some np)
    (hlen : data.length = np) (hne : data.length ≠ nc)
    (hsc : u.scale ≠ 0) :
    (add_scalar s data name u).2.2 = none ∧
    lookupKey (add_scalar s data name u).1.pointData name
      = some (VtkArray.scalar (data.map (fun x => x * u.scale))) ∧
    (data.map (fun x => x * u.scale)).map (fun x => x / u.scale) = data := by
  have h1 : ¬ (data.map (fun x => x * u.scale)).length = nc := by
    rw [List.length_map]; exact hne
  have h2 : (data.map (fun x => x * u.scale)).length = np := by
    rw [List.length_map]; exact hlen
  refine ⟨?_, ?_, ?_⟩
  · simp only [add_scalar, hc, hp]
    rw [if_neg h1, if_pos h2]
  · simp only [add_scalar, hc, hp, if_neg h1, if_pos h2]
    exact lookupKey_setKey _ _ _
  · rw [List.map_map]
    have hid : ∀ x ∈ data, ((fun x => x / u.scale) ∘ fun x => x * u.scale) x = x := by
      intro x _
      simp only [Function.comp]
      rw [mul_div_assoc, div_self hsc, mul_one]
    rw [List.map_congr_left hid]
    simp

/-- Claim C6, witness: ingesting `[5]` with unit "km" into a grid with
one point and two cells stores `[5000]` in the point data, and dividing
by the scale recovers `[5]`. -/
theorem c6_add_scalar_si_rescale_witness :
    (add_scalar ⟨some 2, some 1, [], [], []⟩ [5] "d" kmUnit).2.2 = none ∧
    lookupKey (add_scalar ⟨some 2, some 1, [], [], []⟩ [5] "d" kmUnit).1.pointData
      "d" = some (VtkArray.scalar [5000]) ∧
    [(5000 : ℚ)].map (fun x => x / kmUnit.scale) = [5] := by
  have h := c6_add_scalar_si_rescale ⟨some 2, some 1, [], [], []⟩ [5] "d" kmUnit
    2 1 rfl rfl rfl (by norm_num) (by norm_num [kmUnit])
  have hval : [(5 : ℚ)].map (fun x => x * kmUnit.scale) = [5000] := by
    norm_num [kmUnit]
  refine ⟨h.1, ?_, ?_⟩
  · rw [← hval]
    exact h.2.1
  · rw [← hval]
    exact h.2.2

/-- Claim C9, counterexample: `add_vector` multiplies the caller-owned
component buffers in place by the SI scale (`vx *= _unit.si.scale`), so
after ingesting `([1], [2], [3])` with unit "km" the caller buffers
hold `([1000], [2000], [3000])`, not their original values. -/
theorem c9_add_vector_mutates_buffers :
    (add_vector ⟨some 1, some 1, [], [], []⟩ [1] [2] [3] "b" kmUnit).2.1
      = ([1000], [2000], [3000]) ∧
    (([1000], [2000], [3000]) : List ℚ × List ℚ × List ℚ)
      ≠ ([1], [2], [3]) := by
  constructor
  · norm_num [add_vector, kmUnit]
  · intro h
    have := congrArg (fun q => q.1) h
    simp at this

/-- Claim C9 (amended): `add_scalar` copies on rescale and leaves the
caller buffer holding its original values; `add_vector` rescales the
three caller-owned component buffers in place, so after the call they
hold the input times the SI scale (the array stored in the grid is
still a deep copy made after that rescale).  Callers of `add_vector`
therefore do not get their original values back for a unit with a
non-unity SI scale. -/
theorem c9_buffer_effects (s : DatasetState) (data vx vy vz : List ℚ)
    (name : String) (u : PhysUnit)
    (h : vx.length = vy.length ∧ vy.length = vz.length) :
    (add_scalar s data name u).2.1 = data ∧
    (add_vector s vx vy vz name u).2.1
      = (vx.map (fun x => x * u.scale), vy.map (fun x => x * u.scale),
         vz.map (fun x => x * u.scale)) := by
  constructor
  · simp only [add_scalar]
    repeat' split
    all_goals rfl
  · simp only [add_vector]
    rw [if_pos h]
    repeat' split
    all_goals rfl

/-- Claim C9, witness: with equal-size components, the buffers returned
to the caller are the rescaled ones. -/
theorem c9_buffer_effects_witness :
    (add_scalar ⟨some 1, some 1, [], [], []⟩ [5] "b" kmUnit).2.1 = [5] ∧
    (add_vector ⟨some 1, some 1, [], [], []⟩ [1] [2] [3] "b" kmUnit).2.1
      = ([1].map (fun x => x * kmUnit.scale),
         [2].map (fun x => x * kmUnit.scale),
         [3].map (fun x => x * kmUnit.scale)) :=
  c9_buffer_effects ⟨some 1, some 1, [], [], []⟩ [5] [1] [2] [3] "b" kmUnit
    ⟨rfl, rfl⟩

/-- Claim C3: for snapshots with unique labels, `changes_to_points`
marks a label updated exactly when it is present in both snapshots and
either the shape of its coordinate differs or some component separates
by at least the tolerance; the added entries are exactly the labels
present only in `new`, and the removed entries exactly the labels
present only in `old`. -/
theorem c3_changes_to_points_marks (sep : Coord → Coord → List ℚ)
    (tol : ℚ) (old new : List (String × Coord))
    (hold : (old.map Prod.fst).Nodup) (hnew : (new.map Prod.fst).Nodup) :
    (∀ k v, (k, v) ∈ (changes_to_points sep tol old new).1 ↔
      lookupKey new k = some v ∧ lookupKey old k = none) ∧
    (∀ k v, (k, v) ∈ (changes_to_points sep tol old new).2.1 ↔
      lookupKey old k = some v ∧ lookupKey new k = none) ∧
    (∀ k vo vn, (k, (vo, vn)) ∈ (changes_to_points sep tol old new).2.2 ↔
      lookupKey old k = some vo ∧ lookupKey new k = some vn ∧
        (vo.shape ≠ vn.shape ∨ ∃ d ∈ sep vn vo, tol ≤ d)) := by
  have hnotall : ∀ (l : List ℚ),
      ¬ l.all (fun d => decide (d < tol)) = true ↔ ∃ d ∈ l, tol ≤ d := by
    intro l
    simp [List.all_eq_true, not_lt]
  refine ⟨?_, ?_, ?_⟩
  · intro k v
    simp only [changes_to_points, List.mem_filter,
      Option.isNone_iff_eq_none]
    rw [lookupKey_eq_some_iff_mem new hnew k v, and_comm]
  · intro k v
    simp only [changes_to_points, List.mem_filter,
      Option.isNone_iff_eq_none]
    rw [lookupKey_eq_some_iff_mem old hold k v, and_comm]
  · intro k vo vn
    simp only [changes_to_points, List.mem_filterMap]
    constructor
    · rintro ⟨⟨k2, vo2⟩, hmem, hf⟩
      rcases hln : lookupKey new k2 with _ | nv
      · simp [hln] at hf
      · simp only [hln] at hf
        by_cases hsh : vo2.shape ≠ nv.shape
        · rw [if_pos hsh] at hf
          obtain ⟨rfl, rfl, rfl⟩ : k2 = k ∧ vo2 = vo ∧ nv = vn := by
            simpa [Prod.ext_iff] using hf
          exact ⟨(lookupKey_eq_some_iff_mem old hold _ _).mpr hmem, hln,
            Or.inl hsh⟩
        · rw [if_neg hsh] at hf
          by_cases hall : (sep nv vo2).all (fun d => decide (d < tol)) = true
          · rw [if_pos hall] at hf
            cases hf
          · rw [if_neg hall] at hf
            obtain ⟨rfl, rfl, rfl⟩ : k2 = k ∧ vo2 = vo ∧ nv = vn := by
              simpa [Prod.ext_iff] using hf
            exact ⟨(lookupKey_eq_some_iff_mem old hold _ _).mpr hmem, hln,
              Or.inr ((hnotall _).mp hall)⟩
    · rintro ⟨hl, hn, hcond⟩
      refine ⟨(k, vo), (lookupKey_eq_some_iff_mem old hold k vo).mp hl, ?_⟩
      simp only [hn]
      by_cases hsh : vo.shape ≠ vn.shape
      · rw [if_pos hsh]
      · rw [if_neg hsh]
        have hallf : ¬ (sep vn vo).all (fun d => decide (d < tol)) = true := by
          rcases hcond with hcond | hcond
          · exact absurd hcond hsh
          · exact (hnotall _).mpr hcond
        rw [if_neg hallf]

/-- Claim C3, witness: mutating a snapshot from holding only "A" to
holding "A" and "B" marks exactly "B" as added. -/
theorem c3_changes_to_points_witness :
    ((([("A", coordA)] : List (String × Coord)).map Prod.fst).Nodup ∧
     (([("A", coordA), ("B", coordB)] : List (String × Coord)).map
       Prod.fst).Nodup) ∧
    (("B", coordB) ∈ (changes_to_points sep0 (1 / 1000000) [("A", coordA)]
        [("A", coordA), ("B", coordB)]).1 ↔
      lookupKey [("A", coordA), ("B", coordB)] "B" = some coordB ∧
      lookupKey [("A", coordA)] "B" = none) := by
  have h1 : (([("A", coordA)] : List (String × Coord)).map Prod.fst).Nodup := by
    simp
  have h2 : (([("A", coordA), ("B", coordB)] : List (String × Coord)).map
      Prod.fst).Nodup := by simp
  exact ⟨⟨h1, h2⟩,
    (c3_changes_to_points_marks sep0 (1 / 1000000) _ _ h1 h2).1 "B" coordB⟩

/-- Claim C7: the reconciler first drops from the figure every trace
tagged with a label in `removed ∪ updated` (so removals for a label
always precede its re-additions), then appends retraced plots only for
the updated labels and plots for the added labels; every trace of an
unaffected label survives untouched.  On the scenario snapshot change
from holding only "A" to holding "A" and "B", exactly the trace list of
"B" is appended and the existing "A" trace is untouched. -/
theorem c7_reconciler_ops (sep : Coord → Coord → List ℚ)
    (ts : String → List TraceObj) (old new : List (String × Coord))
    (figData : List TraceObj) :
    (on_seeds_change sep ts old new figData
      = figData.filter (fun d => decide (d.name ∉
          ((changes_to_points sep (1 / 1000000) old new).2.1.map Prod.fst ++
           (changes_to_points sep (1 / 1000000) old new).2.2.map Prod.fst)))
        ++ ((changes_to_points sep (1 / 1000000) old new).2.2.map
             Prod.fst).flatMap ts
        ++ ((changes_to_points sep (1 / 1000000) old new).1.map
             Prod.fst).flatMap ts) ∧
    (∀ d ∈ figData,
      d.name ∉ (changes_to_points sep (1 / 1000000) old new).2.1.map Prod.fst →
      d.name ∉ (changes_to_points sep (1 / 1000000) old new).2.2.map Prod.fst →
      d ∈ on_seeds_change sep ts old new figData) ∧
    on_seeds_change sep0 ts0 [("A", coordA)] [("A", coordA), ("B", coordB)]
      [⟨"A", 0⟩] = [⟨"A", 0⟩, ⟨"B", 100⟩] := by
  have heq : on_seeds_change sep ts old new figData
      = figData.filter (fun d => decide (d.name ∉
          ((changes_to_points sep (1 / 1000000) old new).2.1.map Prod.fst ++
           (changes_to_points sep (1 / 1000000) old new).2.2.map Prod.fst)))
        ++ ((changes_to_points sep (1 / 1000000) old new).2.2.map
             Prod.fst).flatMap ts
        ++ ((changes_to_points sep (1 / 1000000) old new).1.map
             Prod.fst).flatMap ts := by
    simp only [on_seeds_change]
    rw [foldl_append_flatten, foldl_append_flatten]
  refine ⟨heq, ?_, ?_⟩
  · intro d hd h1 h2
    rw [heq]
    apply List.mem_append_left
    apply List.mem_append_left
    have hni : d.name ∉
        (changes_to_points sep (1 / 1000000) old new).2.1.map Prod.fst ++
        (changes_to_points sep (1 / 1000000) old new).2.2.map Prod.fst := by
      rw [List.mem_append]
      rintro (h3 | h3)
      · exact h1 h3
      · exact h2 h3
    exact List.mem_filter.mpr ⟨hd, decide_eq_true hni⟩
  · have hAB : ("A" : String) ≠ "B" := by decide
    norm_num [on_seeds_change, changes_to_points, lookupKey, sep0, ts0,
      coordA, coordB, hAB, List.filter_cons, List.filter_nil,
      List.foldl_cons, List.foldl_nil]

/-- Claim C7, witness: in the scenario, the pre-existing trace of the
unaffected label "A" survives the reconciliation untouched. -/
theorem c7_reconciler_ops_witness :
    (⟨"A", 0⟩ : TraceObj) ∈ on_seeds_change sep0 ts0 [("A", coordA)]
      [("A", coordA), ("B", coordB)] [⟨"A", 0⟩] := by
  refine (c7_reconciler_ops sep0 ts0 [("A", coordA)]
    [("A", coordA), ("B", coordB)] [⟨"A", 0⟩]).2.1 ⟨"A", 0⟩ (by simp) ?_ ?_
  · norm_num [changes_to_points, lookupKey, coordA, coordB]
  · norm_num [changes_to_points, lookupKey, sep0, coordA, coordB]

/-- The magnitude of a componentwise rescaled vector. -/
theorem magnitude_scale (c x y z : ℝ) :
    magnitude (c * x, c * y, c * z) = |c| * magnitude (x, y, z) := by
  show Real.sqrt (c * x * (c * x) + c * y * (c * y) + c * z * (c * z))
      = |c| * Real.sqrt (x * x + y * y + z * z)
  rw [show c * x * (c * x) + c * y * (c * y) + c * z * (c * z)
      = (c * c) * (x * x + y * y + z * z) from by ring]
  rw [Real.sqrt_mul (mul_self_nonneg c), Real.sqrt_mul_self_eq_abs]

/-- The spherical-to-Cartesian basis rotation of
`_get_cartesian_vector` is orthonormal: it preserves the Euclidean
magnitude of the local components `(vr, vt, vp)` at every grid angle
pair, by the Pythagorean identity applied at `th` and at `ph`. -/
theorem magnitude_get_cartesian (th ph : ℝ) (v : Vec3) :
    magnitude (_get_cartesian_vector th ph v) = magnitude v := by
  show Real.sqrt
      ((v.1 * Real.sin th * Real.cos ph + v.2.1 * Real.cos th * Real.cos ph
          - v.2.2 * Real.sin ph)
        * (v.1 * Real.sin th * Real.cos ph + v.2.1 * Real.cos th * Real.cos ph
          - v.2.2 * Real.sin ph)
        + (v.1 * Real.sin th * Real.sin ph + v.2.1 * Real.cos th * Real.sin ph
            + v.2.2 * Real.cos ph)
          * (v.1 * Real.sin th * Real.sin ph + v.2.1 * Real.cos th * Real.sin ph
            + v.2.2 * Real.cos ph)
        + (v.1 * Real.cos th - v.2.1 * Real.sin th)
          * (v.1 * Real.cos th - v.2.1 * Real.sin th))
      = Real.sqrt (v.1 * v.1 + v.2.1 * v.2.1 + v.2.2 * v.2.2)
  congr 1
  have h1 := Real.sin_sq_add_cos_sq th
  have h2 := Real.sin_sq_add_cos_sq ph
  linear_combination
    ((v.1 * Real.sin th + v.2.1 * Real.cos th) ^ 2 + v.2.2 ^ 2) * h2
      + (v.1 ^ 2 + v.2.1 ^ 2) * h1

/-- Claim C1, counterexample: the transformation is not
magnitude-preserving for every vector field and every frame pair.  On a
field containing the zero vector the normalization is a `0/0` and the
code silently produces non-finite (NaN) components (`none`), so no
output vector carrying the input magnitude exists.  And for a frame
pair whose transformation is not a pure rotation — here a frame map
with a unit translation component, as a frame change between frames
with different origins performs on positions — a local unit vector
comes back with magnitude 2 instead of 1. -/
theorem c1_not_magnitude_preserving :
    (get_transformed_vector (fun w => w) 0 0 ((0 : ℝ), 0, 0) = none ∧
     magnitude ((0 : ℝ), 0, 0) = 0) ∧
    (get_transformed_vector (fun w => (w.1 + 1, w.2.1, w.2.2)) 0 0
        ((0 : ℝ), 1, 0) = some (2, 0, 0) ∧
     magnitude ((2 : ℝ), 0, 0) = 2 ∧ magnitude ((0 : ℝ), 1, 0) = 1) := by
  have hcart0 : _get_cartesian_vector 0 0 ((0 : ℝ), 0, 0)
      = ((0 : ℝ), 0, 0) := by
    norm_num [_get_cartesian_vector]
  have h0 : magnitude ((0 : ℝ), 0, 0) = 0 := by
    show Real.sqrt ((0 : ℝ) * 0 + 0 * 0 + 0 * 0) = 0
    norm_num
  have hcart1 : _get_cartesian_vector 0 0 ((0 : ℝ), 1, 0)
      = ((1 : ℝ), 0, 0) := by
    norm_num [_get_cartesian_vector]
  have hm1 : magnitude ((1 : ℝ), 0, 0) = 1 := by
    show Real.sqrt ((1 : ℝ) * 1 + 0 * 0 + 0 * 0) = 1
    rw [show (1 : ℝ) * 1 + 0 * 0 + 0 * 0 = 1 from by norm_num, Real.sqrt_one]
  have hm2 : magnitude ((2 : ℝ), 0, 0) = 2 := by
    show Real.sqrt ((2 : ℝ) * 2 + 0 * 0 + 0 * 0) = 2
    rw [show (2 : ℝ) * 2 + 0 * 0 + 0 * 0 = 2 ^ 2 from by norm_num,
      Real.sqrt_sq (by norm_num : (0 : ℝ) ≤ 2)]
  have hm3 : magnitude ((0 : ℝ), 1, 0) = 1 := by
    show Real.sqrt ((0 : ℝ) * 0 + 1 * 1 + 0 * 0) = 1
    rw [show (0 : ℝ) * 0 + 1 * 1 + 0 * 0 = 1 from by norm_num, Real.sqrt_one]
  refine ⟨⟨?_, h0⟩, ?_, hm2, hm3⟩
  · simp only [get_transformed_vector, hcart0, h0, fdiv, if_pos]
  · have hne1 : (1 : ℝ) ≠ 0 := one_ne_zero
    simp only [get_transformed_vector, hcart1, hm1, fdiv, if_neg hne1]
    norm_num

/-- Claim C1 (amended): for every local-basis vector of nonzero
magnitude, every grid angle pair, and every frame pair whose
transformation preserves Euclidean magnitude (a pure rotation),
`get_transformed_vector` produces an output vector whose magnitude
equals the input magnitude exactly: the spherical-to-Cartesian basis
rotation is orthonormal, and only the unit direction passes through the
frame transform before being recombined with the original magnitude. -/
theorem c1_magnitude_preserving (R : Vec3 → Vec3) (th ph : ℝ) (v : Vec3)
    (hR : ∀ w, magnitude (R w) = magnitude w) (hv : magnitude v ≠ 0) :
    ∃ w, get_transformed_vector R th ph v = some w ∧
      magnitude w = magnitude v := by
  have hc : magnitude (_get_cartesian_vector th ph v) = magnitude v :=
    magnitude_get_cartesian th ph v
  set c := _get_cartesian_vector th ph v with hcdef
  have hcv : magnitude c ≠ 0 := by rw [hc]; exact hv
  have hnn : 0 ≤ magnitude c := Real.sqrt_nonneg _
  have heta : ∀ w : Vec3, magnitude (w.1, w.2.1, w.2.2) = magnitude w :=
    fun _ => rfl
  refine ⟨(magnitude c * (R (c.1 / magnitude c, c.2.1 / magnitude c,
      c.2.2 / magnitude c)).1,
    magnitude c * (R (c.1 / magnitude c, c.2.1 / magnitude c,
      c.2.2 / magnitude c)).2.1,
    magnitude c * (R (c.1 / magnitude c, c.2.1 / magnitude c,
      c.2.2 / magnitude c)).2.2), ?_, ?_⟩
  · simp only [get_transformed_vector, fdiv, ← hcdef, if_neg hcv]
  · rw [magnitude_scale, heta, hR]
    have hu : magnitude (c.1 / magnitude c, c.2.1 / magnitude c,
        c.2.2 / magnitude c) = 1 := by
      simp only [div_eq_inv_mul]
      rw [magnitude_scale, heta, abs_inv, abs_of_nonneg hnn,
        inv_mul_cancel₀ hcv]
    rw [hu, mul_one, abs_of_nonneg hnn, hc]

/-- Claim C1, witness: at grid angles zero, the identity frame
transformation preserves the magnitude of the local vector
`(3, 4, 0)`. -/
theorem c1_magnitude_preserving_witness :
    (∀ w : Vec3, magnitude ((fun q => q) w) = magnitude w) ∧
    magnitude ((3 : ℝ), 4, 0) ≠ 0 ∧
    ∃ w, get_transformed_vector (fun q => q) 0 0 ((3 : ℝ), 4, 0) = some w ∧
      magnitude w = magnitude ((3 : ℝ), 4, 0) := by
  have h34 : magnitude ((3 : ℝ), 4, 0) ≠ 0 := by
    show Real.sqrt ((3 : ℝ) * 3 + 4 * 4 + 0 * 0) ≠ 0
    positivity
  exact ⟨fun _ => rfl, h34,
    c1_magnitude_preserving (fun q => q) 0 0 ((3 : ℝ), 4, 0)
      (fun _ => rfl) h34⟩

/-- Claim C5, counterexample: on a zero-magnitude input vector the code
neither raises an error nor maps the zero vector to a zero vector: the
zero local components convert to zero Cartesian components, and the
`0/0` normalization silently yields non-finite (NaN) components, which
`none` models. -/
theorem c5_zero_vector_counterexample :
    get_transformed_vector (fun w => w) 0 0 ((0 : ℝ), 0, 0) = none := by
  have hcart0 : _get_cartesian_vector 0 0 ((0 : ℝ), 0, 0)
      = ((0 : ℝ), 0, 0) := by
    norm_num [_get_cartesian_vector]
  have h0 : magnitude ((0 : ℝ), 0, 0) = 0 := by
    show Real.sqrt ((0 : ℝ) * 0 + 0 * 0 + 0 * 0) = 0
    norm_num
  simp only [get_transformed_vector, hcart0, h0, fdiv, if_pos]

/-- Claim C5 (amended): for every local-basis input vector of magnitude
zero and every grid angle pair, the converted Cartesian vector also has
magnitude zero, so `get_transformed_vector` performs a `0/0`
unit-direction normalization whose non-finite result poisons the whole
output: the call returns NaN components (`none`), with no
`DegenerateVector` error and no special handling of zero vectors. -/
theorem c5_zero_vector_nan (R : Vec3 → Vec3) (th ph : ℝ) (v : Vec3)
    (hv : magnitude v = 0) : get_transformed_vector R th ph v = none := by
  have hc : magnitude (_get_cartesian_vector th ph v) = 0 :=
    (magnitude_get_cartesian th ph v).trans hv
  simp [get_transformed_vector, fdiv, hc]

/-- Claim C5, witness: the zero local vector has magnitude zero and
produces the poisoned (NaN) output under the identity transformation at
grid angles zero. -/
theorem c5_zero_vector_nan_witness :
    magnitude ((0 : ℝ), 0, 0) = 0 ∧
    get_transformed_vector (fun w => w) 0 0 ((0 : ℝ), 0, 0) = none := by
  have h0 : magnitude ((0 : ℝ), 0, 0) = 0 := by
    show Real.sqrt ((0 : ℝ) * 0 + 0 * 0 + 0 * 0) = 0
    norm_num
  exact ⟨h0, c5_zero_vector_nan (fun w => w) 0 0 ((0 : ℝ), 0, 0) h0⟩

end Shelvis
